import Mathlib

/-!
Shallow embedding of the PS-credential module (src/Part 1/credential.py).

Group model: the three pairing groups G1, G2, GT have prime order p and are
cyclic, so an element is represented by its discrete logarithm with respect
to the fixed generator of its group (a value of ZMod p).  Group
multiplication adds logarithms, exponentiation multiplies a logarithm by the
integer exponent (reduced mod p), the bilinear pairing multiplies the two
logarithms, and the neutral element has logarithm 0.  Since the pairing of
petrelic is non-degenerate on groups of the same prime order, this
representation is an isomorphic image of the real groups, and element
equality coincides with equality of logarithms.  Python scalars (petrelic
Bn values) are represented as integers.

Python exceptions are modelled with Except PyErr: list indexing out of
range raises indexError, an operation on operands of the wrong type raises
typeError, a missing method raises attributeError, and a bare
raise NotImplementedError is notImplementedError.  Every random scalar that
a function draws internally is modelled as one explicit extra parameter of
that function, so freshness and reuse of randomness are visible in the
types.
-/

namespace Cred

/-- Python exceptions raised by the embedded code. -/
inductive PyErr : Type where
  | indexError
  | typeError
  | attributeError
  | notImplementedError
deriving DecidableEq

deriving instance DecidableEq for Except

/-- Runtime values of the Python module: field scalars (petrelic Bn values,
as integers) and elements of the three pairing groups, each represented by
its discrete logarithm in ZMod p. -/
inductive GVal (p : ℕ) : Type where
  | scalar (n : ℤ)
  | e1 (k : ZMod p)
  | e2 (k : ZMod p)
  | eT (k : ZMod p)
deriving DecidableEq

/-- Python numbers as they occur in credential.py: ints and floats.  The
only float that occurs, L = (len(pk) - 3) / 2, is produced by true division
of small integers and is exactly representable, so floats are modelled by
rationals; only the type tag matters, because a float used as a slice index
raises TypeError regardless of its value. -/
inductive PyNum : Type where
  | int (n : ℤ)
  | float (q : ℚ)

variable {p : ℕ}

/-- Python 3 true division of two ints: the result is always a float. -/
def pyTrueDiv (a b : ℤ) : PyNum := .float ((a : ℚ) / (b : ℚ))

/-- Python addition on numbers: int + float promotes to float. -/
def pyNumAdd : PyNum → PyNum → PyNum
  | .int a, .int b => .int (a + b)
  | .int a, .float b => .float ((a : ℚ) + b)
  | .float a, .int b => .float (a + (b : ℚ))
  | .float a, .float b => .float (a + b)

/-- Python list indexing l[i] for a nonnegative index: IndexError when the
index is out of range. -/
def pyIndex : List α → ℕ → Except PyErr α
  | [], _ => .error .indexError
  | a :: _, 0 => .ok a
  | _ :: l, n + 1 => pyIndex l n

/-- Python slicing l[i:]: defined for int indices (a negative index counts
from the end of the list); a float index raises TypeError. -/
def pySliceFrom (l : List α) (i : PyNum) : Except PyErr (List α) :=
  match i with
  | .int n => .ok (if 0 ≤ n then l.drop n.toNat else l.drop ((l.length : ℤ) + n).toNat)
  | .float _ => .error .typeError

/-- Multiplication a * b as used by credential.py: int * int, or the group
operation applied to two elements of the same group; any other combination
raises. -/
def pyMul : GVal p → GVal p → Except PyErr (GVal p)
  | .scalar a, .scalar b => .ok (.scalar (a * b))
  | .e1 a, .e1 b => .ok (.e1 (a + b))
  | .e2 a, .e2 b => .ok (.e2 (a + b))
  | .eT a, .eT b => .ok (.eT (a + b))
  | _, _ => .error .typeError

/-- Addition a + b: only int + int occurs in the module. -/
def pyAdd : GVal p → GVal p → Except PyErr (GVal p)
  | .scalar a, .scalar b => .ok (.scalar (a + b))
  | _, _ => .error .typeError

/-- Exponentiation a ** b: a group element raised to an integer power (the
logarithm is multiplied by the exponent mod p), or int ** int.  An int
raised to a negative int, which no reachable code path produces, is
modelled as an error. -/
def pyPow : GVal p → GVal p → Except PyErr (GVal p)
  | .e1 a, .scalar n => .ok (.e1 (a * (n : ZMod p)))
  | .e2 a, .scalar n => .ok (.e2 (a * (n : ZMod p)))
  | .eT a, .scalar n => .ok (.eT (a * (n : ZMod p)))
  | .scalar a, .scalar n =>
    if 0 ≤ n then .ok (.scalar (a ^ n.toNat)) else .error .typeError
  | _, _ => .error .typeError

/-- The petrelic division method a.div(b) on two elements of one group. -/
def pyDivG : GVal p → GVal p → Except PyErr (GVal p)
  | .e1 a, .e1 b => .ok (.e1 (a - b))
  | .e2 a, .e2 b => .ok (.e2 (a - b))
  | .eT a, .eT b => .ok (.eT (a - b))
  | .scalar _, _ => .error .attributeError
  | _, _ => .error .typeError

/-- The petrelic pairing method a.pair(b), mapping G1 x G2 to GT. -/
def pyPair : GVal p → GVal p → Except PyErr (GVal p)
  | .e1 a, .e2 b => .ok (.eT (a * b))
  | .scalar _, _ => .error .attributeError
  | _, _ => .error .typeError

/-- A Python list comprehension [f x for x in l] whose body may raise. -/
def exceptMap (f : α → Except PyErr β) : List α → Except PyErr (List β)
  | [] => .ok []
  | a :: l =>
    match f a with
    | .error e => .error e
    | .ok b =>
      match exceptMap f l with
      | .error e => .error e
      | .ok bs => .ok (b :: bs)

/-- Left fold of a possibly raising binary operation, as performed by the
builtins sum and math.prod. -/
def exceptFoldl (f : GVal p → GVal p → Except PyErr (GVal p)) :
    GVal p → List (GVal p) → Except PyErr (GVal p)
  | acc, [] => .ok acc
  | acc, a :: l =>
    match f acc a with
    | .error e => .error e
    | .ok b => exceptFoldl f b l

/-- math.prod over the group elements of credential.py: the empty product is
the int 1, and a nonempty product folds group multiplication starting from
the first element (the int start value 1 acts as multiplicative identity). -/
def mathProd : List (GVal p) → Except PyErr (GVal p)
  | [] => .ok (.scalar 1)
  | a :: l => exceptFoldl pyMul a l

/-- The builtin sum, folding addition from the int 0. -/
def pySum (l : List (GVal p)) : Except PyErr (GVal p) :=
  exceptFoldl pyAdd (.scalar 0) l

/-- True when the modelled computation raised an exception. -/
def throws : Except PyErr α → Bool
  | .error _ => true
  | .ok _ => false

/-- generate_key (credential.py lines 45-62).  The drawn randomness is
explicit: x is the scalar drawn for the secret key, and yr is the stream
from which the L scalars y are drawn (y = [yr 0, .., yr (L-1)]).  The
attribute list itself is used only through its length L. -/
def generate_key (attributes : List (GVal p)) (x : ℤ) (yr : ℕ → ℤ) :
    List (GVal p) × List (GVal p) :=
  let L := attributes.length
  let g_1 : GVal p := .e1 1
  let g_2 : GVal p := .e2 1
  let X_1 : GVal p := .e1 (x : ZMod p)
  let X_2 : GVal p := .e2 (x : ZMod p)
  let y : List ℤ := (List.range L).map yr
  let Y_1 : List (GVal p) := y.map fun (i : ℤ) => .e1 (i : ZMod p)
  let Y_2 : List (GVal p) := y.map fun (i : ℤ) => .e2 (i : ZMod p)
  let pk := [g_1] ++ Y_1 ++ [g_2] ++ [X_2] ++ Y_2
  let sk := [GVal.scalar x] ++ [X_1] ++ y.map GVal.scalar
  (sk, pk)

/-- sign (credential.py lines 68-77).  The source sets h = G1.generator(),
the FIXED generator: no randomness is drawn anywhere in this function,
which is why it has no randomness parameter.  Then it returns
(h, h ** (x + sum of m_i * y_i)) with x = sk[0] and the y_i = sk[2:]. -/
def sign (sk : List (GVal p)) (msgs : List (GVal p)) :
    Except PyErr (GVal p × GVal p) := do
  let h : GVal p := .e1 1
  let x ← pyIndex sk 0
  let prods ← exceptMap (fun ab => pyMul ab.1 ab.2) (msgs.zip (sk.drop 2))
  let sm ← pySum prods
  let ex ← pyAdd x sm
  let hs ← pyPow h ex
  return (h, hs)

/-- verify (credential.py lines 85-98).  Faithful to the source, including
the defect that the second pairing operand is built from msgs[L + 2] with
L = len(msgs) (the intended term was pk[L + 2], the element X2), and that
this expression is evaluated before the boolean short-circuit on the
neutral-element test can return. -/
def verify (pk : List (GVal p)) (signature : GVal p × GVal p)
    (msgs : List (GVal p)) : Except PyErr Bool := do
  let L := msgs.length
  let s1 := signature.1
  let s2 := signature.2
  let pows ← exceptMap (fun ab => pyPow ab.1 ab.2) ((pk.drop (L + 3)).zip msgs)
  let pr ← mathProd pows
  let mx ← pyIndex msgs (L + 2)
  let e1 ← pyMul pr mx
  let e2 ← pyIndex pk (L + 1)
  if s1 = GVal.e1 0 then
    return false
  else
    let t1 ← pyPair s1 e1
    let t2 ← pyPair s2 e2
    return decide (t1 = t2)

/-- create_issue_request (credential.py lines 108-128).  The user attribute
map is a list of (attribute, index) pairs.  The drawn blinding scalar is
the explicit parameter t.  Faithful to the source: L = (len(pk) - 3) / 2 is
a Python float because of true division, and it is then used as the slice
index in pk[L + 3:]; also, only the commitment C is returned, t is
dropped. -/
def create_issue_request (pk : List (GVal p))
    (user_attributes : List (GVal p × ℕ)) (t : ℤ) : Except PyErr (GVal p) := do
  let L : PyNum := pyTrueDiv ((pk.length : ℤ) - 3) 2
  let g ← pyIndex pk 0
  let y ← pySliceFrom pk (pyNumAdd L (.int 3))
  let attributes := user_attributes.map Prod.fst
  let indices := user_attributes.map Prod.snd
  let ysel ← exceptMap (fun i => pyIndex y i) indices
  let gt ← pyPow g (.scalar t)
  let pows ← exceptMap (fun ab => pyPow ab.1 ab.2) (ysel.zip attributes)
  let pr ← mathProd pows
  pyMul gt pr

/-- sign_issue_request (credential.py lines 132-153).  The issuer
randomness is the explicit parameter u.  Faithful to the source, including
the float L = (len(pk) - 3) / 2 used as slice index in pk[L + 3:]. -/
def sign_issue_request (sk pk : List (GVal p)) (request : GVal p)
    (issuer_attributes : List (GVal p × ℕ)) (u : ℤ) :
    Except PyErr (GVal p × GVal p) := do
  let L : PyNum := pyTrueDiv ((pk.length : ℤ) - 3) 2
  let y ← pySliceFrom pk (pyNumAdd L (.int 3))
  let attributes := issuer_attributes.map Prod.fst
  let indices := issuer_attributes.map Prod.snd
  let ysel ← exceptMap (fun i => pyIndex y i) indices
  let g ← pyIndex pk 0
  let s_1 ← pyPow g (.scalar u)
  let x1 ← pyIndex sk 1
  let m1 ← pyMul x1 request
  let pows ← exceptMap (fun ab => pyPow ab.1 ab.2) (ysel.zip attributes)
  let pr ← mathProd pows
  let m2 ← pyMul m1 pr
  let s_2 ← pyPow m2 (.scalar u)
  return (s_1, s_2)

/-- obtain_credential (credential.py lines 157-166).  The source takes no
blinding scalar from the request step; instead it draws a FRESH random t
(modelled by the explicit parameter t) and returns
(response[0], response[1].div(response[0] ** t)). -/
def obtain_credential (pk : List (GVal p)) (response : GVal p × GVal p)
    (t : ℤ) : Except PyErr (GVal p × GVal p) := do
  let st ← pyPow response.1 (.scalar t)
  let d ← pyDivG response.2 st
  return (response.1, d)

/-- create_disclosure_proof (credential.py lines 173-184).  The two drawn
scalars are the explicit parameters r and t.  The source computes the local
tuple s = (credential[0] ** r, credential[1] * (credential[0] ** t) ** r)
and then falls through without a return statement, so the function returns
None, modelled as Option.none. -/
def create_disclosure_proof (pk : List (GVal p)) (credential : GVal p × GVal p)
    (hidden_attributes : List (GVal p)) (message : List ℕ) (r t : ℤ) :
    Except PyErr (Option (GVal p × GVal p)) := do
  let c0r ← pyPow credential.1 (.scalar r)
  let c0t ← pyPow credential.1 (.scalar t)
  let c0tr ← pyPow c0t (.scalar r)
  let s2 ← pyMul credential.2 c0tr
  let _s := (c0r, s2)
  return none

/-- verify_disclosure_proof (credential.py lines 187-196): the body is a
bare raise NotImplementedError(). -/
def verify_disclosure_proof {α : Type} (pk : List (GVal p))
    (disclosure_proof : α) (message : List ℕ) : Except PyErr Bool :=
  .error .notImplementedError

/-! Helper lemmas about the Except plumbing. -/

lemma bind_ok (a : α) (f : α → Except PyErr β) :
    (Except.ok a >>= f : Except PyErr β) = f a := rfl

lemma bind_err (e : PyErr) (f : α → Except PyErr β) :
    ((Except.error e : Except PyErr α) >>= f) = .error e := rfl

lemma pure_ok (a : α) : (pure a : Except PyErr α) = .ok a := rfl

lemma ebind_ok (a : α) (f : α → Except PyErr β) :
    Except.bind (Except.ok a) f = f a := rfl

lemma bind_eq_ok {x : Except PyErr α} {f : α → Except PyErr β} {b : β} :
    (x >>= f) = .ok b ↔ ∃ a, x = .ok a ∧ f a = .ok b := by
  cases x <;> simp [bind_ok, bind_err]

lemma pyIndex_length_le (l : List α) (n : ℕ) (h : l.length ≤ n) :
    pyIndex l n = .error .indexError := by
  induction l generalizing n with
  | nil => rfl
  | cons a t ih =>
    cases n with
    | zero => simp at h
    | succ m => exact ih m (by simpa using h)

/-- Claim C10: generate_key depends on its attribute-list argument only
through its length.  For any two attribute lists of equal length and the
same drawn randomness (x, yr), the returned key pairs are identical. -/
theorem c10 (a b : List (GVal p)) (x : ℤ) (yr : ℕ → ℤ)
    (h : a.length = b.length) : generate_key a x yr = generate_key b x yr := by
  unfold generate_key
  rw [h]

/-- Witness for C10 at a concrete input: two different singleton attribute
lists with the same randomness give the same key pair over ZMod 5. -/
theorem c10_witness :
    ([GVal.scalar 1] : List (GVal 5)).length
        = ([GVal.scalar 2] : List (GVal 5)).length ∧
      generate_key ([GVal.scalar 1] : List (GVal 5)) 3 (fun _ => 2)
        = generate_key ([GVal.scalar 2] : List (GVal 5)) 3 (fun _ => 2) :=
  ⟨rfl, c10 [GVal.scalar 1] [GVal.scalar 2] 3 (fun _ => 2) rfl⟩

/-- Claim C2 (refuting theorem): the issuance chain of the source breaks at
its first step.  For every key pair produced by generate_key, every hidden
attribute map and every drawn blinding scalar t, create_issue_request on
the resulting public key raises TypeError, because L = (len(pk) - 3) / 2 is
a float under Python 3 true division and pk[L + 3:] slices with it.  Hence
the chain create_issue_request, sign_issue_request, obtain_credential can
never yield a credential, contradicting the claimed issuance correctness. -/
theorem c2 (attrs : List (GVal p)) (x : ℤ) (yr : ℕ → ℤ)
    (ua : List (GVal p × ℕ)) (t : ℤ) :
    create_issue_request (generate_key attrs x yr).2 ua t
      = .error .typeError := rfl

/-- Claim C5 (refuting theorem): obtain_credential consumes a scalar drawn
freshly inside the unblinding step (modelled by its explicit randomness
parameter), not the blinding scalar of the request step, and its result
genuinely depends on that fresh draw: the same issuer response unblinded
under two different draws gives two different credentials.  (In addition,
create_issue_request never returns its t, see c6.) -/
theorem c5 :
    obtain_credential ([] : List (GVal 5)) (GVal.e1 1, GVal.e1 0) 0
      ≠ obtain_credential ([] : List (GVal 5)) (GVal.e1 1, GVal.e1 0) 1 := by
  decide

/-- Claim C6 (refuting theorem): create_issue_request never returns a pair
(C, t).  On an empty public key it raises IndexError at pk[0]; on any
nonempty public key it raises TypeError, because L = (len(pk) - 3) / 2 is a
float and pk[L + 3:] slices with a float index. -/
theorem c6 (pk : List (GVal p)) (ua : List (GVal p × ℕ)) (t : ℤ) :
    create_issue_request pk ua t
      = .error (if pk.isEmpty then PyErr.indexError else PyErr.typeError) := by
  cases pk <;> rfl

/-- Claim C7 (refuting theorem): sign_issue_request raises TypeError on
every input, for the same float-slice reason, before any blind signature
component is computed. -/
theorem c7 (sk pk : List (GVal p)) (request : GVal p)
    (ia : List (GVal p × ℕ)) (u : ℤ) :
    sign_issue_request sk pk request ia u = .error .typeError := rfl

/-- Claim C8 (refuting theorem): create_disclosure_proof returns None for
every proper credential (h, s) in G1 and all drawn scalars r and t.  The
re-randomized pair is computed into a local variable and then discarded; no
tuple with disclosed attributes and no proof object is ever returned. -/
theorem c8 (pk : List (GVal p)) (a b : ZMod p) (hidden : List (GVal p))
    (message : List ℕ) (r t : ℤ) :
    create_disclosure_proof pk (GVal.e1 a, GVal.e1 b) hidden message r t
      = .ok none := rfl

/-- Claim C9 (refuting theorem): verify_disclosure_proof unconditionally
raises NotImplementedError; it performs no identity check, recomputes no
challenge, and never returns an accept or reject outcome. -/
theorem c9 {α : Type} (pk : List (GVal p)) (dp : α) (message : List ℕ) :
    verify_disclosure_proof pk dp message = .error .notImplementedError := rfl

/-- Claim C3 (refuting theorem): verify raises an exception on every input,
so it never returns an ordinary boolean at all — neither false on an
identity h nor the pairing-equation result otherwise.  The culprit is the
out-of-range index msgs[L + 2] with L = len(msgs), which is evaluated
before the boolean expression can be returned. -/
theorem c3 (pk : List (GVal p)) (signature : GVal p × GVal p)
    (msgs : List (GVal p)) : throws (verify pk signature msgs) = true := by
  simp only [verify]
  cases h1 : exceptMap (fun ab => pyPow ab.1 ab.2)
      ((pk.drop (msgs.length + 3)).zip msgs) with
  | error e => simp [h1, bind_err, throws]
  | ok l =>
    cases h2 : mathProd l with
    | error e => simp [h1, h2, bind_ok, bind_err, throws]
    | ok pr =>
      simp [h1, h2, bind_ok, bind_err, throws,
        pyIndex_length_le msgs (msgs.length + 2) (by omega)]

/-- Claim C4 (refuting theorem): whenever sign returns a signature at all,
its first component is the fixed generator of G1 — sign draws no randomness
and h is G1.generator() on every call, so the first component is never
g1 raised to call-specific fresh randomness. -/
theorem c4 (sk msgs : List (GVal p)) (s : GVal p × GVal p)
    (h : sign sk msgs = .ok s) : s.1 = GVal.e1 1 := by
  simp only [sign, bind_eq_ok, pure_ok, Except.ok.injEq] at h
  obtain ⟨x, _, prods, _, sm, _, ex, _, hs, _, hfin⟩ := h
  rw [← hfin]

/-- Witness for C4 at a concrete input over ZMod 5: sk = [1, g1, 2] and
msgs = [3] give the signature (g1, g1 ** 7), whose first component is the
fixed generator. -/
theorem c4_witness :
    ((GVal.e1 1, GVal.e1 2) : GVal 5 × GVal 5).1 = GVal.e1 1 :=
  c4 [GVal.scalar 1, GVal.e1 1, GVal.scalar 2] [GVal.scalar 3]
    (GVal.e1 1, GVal.e1 2) (by decide)

/-! Structural lemmas used to evaluate sign and verify on the key shapes
produced by generate_key. -/

lemma exceptMap_mul_scalar (ms ys : List ℤ) :
    exceptMap (fun ab => pyMul ab.1 ab.2)
      (((ms.map GVal.scalar : List (GVal p))).zip (ys.map GVal.scalar)) =
    .ok ((ms.zip ys).map fun ab => GVal.scalar (ab.1 * ab.2)) := by
  induction ms generalizing ys with
  | nil => rfl
  | cons a as ih =>
    cases ys with
    | nil => rfl
    | cons b bs =>
      have h1 : pyMul (p := p) (GVal.scalar a) (GVal.scalar b)
          = .ok (.scalar (a * b)) := rfl
      have hz : ((List.map (GVal.scalar (p := p)) (a :: as))).zip
            (List.map (GVal.scalar (p := p)) (b :: bs))
          = (GVal.scalar a, GVal.scalar b) ::
            (List.map (GVal.scalar (p := p)) as).zip
              (List.map (GVal.scalar (p := p)) bs) := rfl
      have hz2 : (a :: as).zip (b :: bs) = (a, b) :: as.zip bs := rfl
      rw [hz, hz2]
      simp only [List.map_cons, exceptMap, h1, ih bs]

lemma exceptFoldl_add_scalar (l : List (ℤ × ℤ)) (c : ℤ) :
    ∃ v : ℤ, exceptFoldl (p := p) pyAdd (.scalar c)
      (l.map fun ab => GVal.scalar (ab.1 * ab.2)) = .ok (.scalar v) := by
  induction l generalizing c with
  | nil => exact ⟨c, rfl⟩
  | cons a as ih =>
    obtain ⟨v, hv⟩ := ih (c + a.1 * a.2)
    exact ⟨v, by simp [exceptFoldl, pyAdd, hv]⟩

lemma sign_ok (x : ℤ) (ys ms : List ℤ) :
    ∃ sig : GVal p × GVal p,
      sign (GVal.scalar x :: GVal.e1 (x : ZMod p) :: ys.map GVal.scalar)
        (ms.map GVal.scalar) = .ok sig := by
  obtain ⟨v, hv⟩ := exceptFoldl_add_scalar (p := p) (ms.zip ys) 0
  have hdrop : List.drop 2
      (GVal.scalar x :: GVal.e1 (x : ZMod p) :: ys.map GVal.scalar)
      = ys.map GVal.scalar := rfl
  refine ⟨(GVal.e1 1, GVal.e1 ((1 : ZMod p) * ((x + v : ℤ) : ZMod p))), ?hh⟩
  simp only [sign, hdrop, pyIndex, bind_ok, exceptMap_mul_scalar, pySum, hv,
    pyAdd, pyPow, pure_ok]

lemma exceptFoldl_mul_e2 (l : List (ZMod p × ℤ)) (k : ZMod p) :
    ∃ v : ZMod p, exceptFoldl pyMul (GVal.e2 k)
      (l.map fun ab => GVal.e2 (ab.1 * (ab.2 : ZMod p))) = .ok (GVal.e2 v) := by
  induction l generalizing k with
  | nil => exact ⟨k, rfl⟩
  | cons a as ih =>
    obtain ⟨v, hv⟩ := ih (k + a.1 * (a.2 : ZMod p))
    exact ⟨v, by simp [exceptFoldl, pyMul, hv]⟩

lemma mathProd_e2 (l : List (ZMod p × ℤ)) :
    ∃ g : GVal p,
      mathProd (l.map fun ab => GVal.e2 (ab.1 * (ab.2 : ZMod p))) = .ok g := by
  cases l with
  | nil => exact ⟨.scalar 1, rfl⟩
  | cons a as =>
    obtain ⟨v, hv⟩ := exceptFoldl_mul_e2 as (a.1 * (a.2 : ZMod p))
    exact ⟨.e2 v, by simp [mathProd, hv]⟩

lemma exceptMap_pow_e2 (ys : List (ZMod p)) (ms : List ℤ) :
    exceptMap (fun ab => pyPow ab.1 ab.2)
      (((ys.map GVal.e2 : List (GVal p))).zip (ms.map GVal.scalar)) =
    .ok ((ys.zip ms).map fun ab => GVal.e2 (ab.1 * (ab.2 : ZMod p))) := by
  induction ys generalizing ms with
  | nil => rfl
  | cons a as ih =>
    cases ms with
    | nil => rfl
    | cons b bs =>
      have h1 : pyPow (p := p) (GVal.e2 a) (GVal.scalar b)
          = .ok (.e2 (a * (b : ZMod p))) := rfl
      have hz : ((List.map (GVal.e2 (p := p)) (a :: as))).zip
            (List.map (GVal.scalar (p := p)) (b :: bs))
          = (GVal.e2 a, GVal.scalar b) ::
            (List.map (GVal.e2 (p := p)) as).zip
              (List.map (GVal.scalar (p := p)) bs) := rfl
      have hz2 : (a :: as).zip (b :: bs) = (a, b) :: as.zip bs := rfl
      rw [hz, hz2]
      simp only [List.map_cons, exceptMap, h1, ih bs]

lemma verify_indexError (pre : List (GVal p)) (ys : List (ZMod p))
    (ms : List ℤ) (sig : GVal p × GVal p)
    (hpre : pre.length = ms.length + 3) :
    verify (pre ++ ys.map GVal.e2) sig (ms.map GVal.scalar)
      = .error .indexError := by
  have hdrop : (pre ++ ys.map GVal.e2).drop (ms.length + 3)
      = ys.map GVal.e2 := by
    rw [← hpre]
    exact List.drop_left pre _
  have hidx : (pyIndex (ms.map GVal.scalar) (ms.length + 2)
      : Except PyErr (GVal p)) = .error .indexError :=
    pyIndex_length_le _ _ (by simp)
  obtain ⟨g, hg⟩ := mathProd_e2 (p := p) (ys.zip ms)
  simp only [verify, List.length_map, hdrop, exceptMap_pow_e2, bind_ok, hg,
    hidx, bind_err]

/-- Claim C1 (refuting theorem): for every key pair produced by
generate_key for attribute count L and every message vector m of length L,
the composition verify(pk, sign(sk, m), m) raises IndexError instead of
returning true: sign succeeds (with the fixed generator as h), and verify
then evaluates the out-of-range msgs[L + 2]. -/
theorem c1 (attrs : List (GVal p)) (x : ℤ) (yr : ℕ → ℤ) (m : List ℤ)
    (hlen : m.length = attrs.length) :
    Except.bind (sign (generate_key attrs x yr).1 (m.map GVal.scalar))
      (fun sig => verify (generate_key attrs x yr).2 sig (m.map GVal.scalar))
      = .error .indexError := by
  have hsk : (generate_key attrs x yr).1
      = GVal.scalar x :: GVal.e1 (x : ZMod p) ::
        ((List.range attrs.length).map yr).map GVal.scalar := rfl
  have hY2 : ((((List.range attrs.length).map yr).map
        fun (i : ℤ) => ((i : ZMod p))).map GVal.e2)
      = ((List.range attrs.length).map yr).map
          fun (i : ℤ) => GVal.e2 (i : ZMod p) := by
    rw [List.map_map]
    rfl
  have hpk : (generate_key attrs x yr).2
      = (([GVal.e1 1]
            ++ (((List.range attrs.length).map yr).map
                  fun (i : ℤ) => GVal.e1 (i : ZMod p))
            ++ [GVal.e2 1]) ++ [GVal.e2 (x : ZMod p)])
        ++ ((((List.range attrs.length).map yr).map
              fun (i : ℤ) => ((i : ZMod p))).map GVal.e2) := by
    rw [hY2]
    rfl
  obtain ⟨sig, hsig⟩ := sign_ok (p := p) x ((List.range attrs.length).map yr) m
  rw [hsk, hsig, ebind_ok, hpk]
  refine verify_indexError _ _ _ _ ?hl
  simp only [List.length_append, List.length_cons, List.length_nil,
    List.length_map, List.length_range]
  omega

/-- Witness for C1 at a concrete input over ZMod 5: one attribute, one
message; the sign-then-verify round trip evaluates to IndexError. -/
theorem c1_witness :
    Except.bind
      (sign (generate_key ([GVal.scalar 0] : List (GVal 5)) 1 (fun _ => 1)).1
        (([2] : List ℤ).map GVal.scalar))
      (fun sig =>
        verify (generate_key ([GVal.scalar 0] : List (GVal 5)) 1 (fun _ => 1)).2
          sig (([2] : List ℤ).map GVal.scalar))
      = .error .indexError :=
  c1 [GVal.scalar 0] 1 (fun _ => 1) [2] rfl

end Cred
